import Mathlib

/-!
Verification of the channel-navigator / selection-transfer subsystem of the
graph_monkey Blender add-on, shallowly embedded from
`src/operators/channel_navigator.py`, `src/operators/handle_selection.py`
and `src/operators/dopesheet_helper.py`.

Embedding conventions:
* Keyframe time coordinates (`co[0]`, Python floats used only through
  subtraction, `abs` and ordering in the code under verification) are
  embedded as `Int`.
* A Blender `FCurve` / `Keyframe` is a record of exactly the fields the
  verified code reads or writes.
* Python object identity of list elements is represented by list position:
  the operator's `self.fcurves` list holds pairwise-distinct objects, so
  `from_fc == to_fc` holds iff the two indices coincide.
* Code that can raise (Python `min` on an empty sequence) is embedded in
  `Except String`; total counterparts are provided together with lemmas
  showing the `Except` versions never return an error.
-/

/-- Interpolation kind of a keyframe (`keyframe.interpolation` in Blender). -/
inductive Interp where
  | bezier
  | linear
  | constant
deriving DecidableEq, Repr

/-- The three independently selectable sub-elements of a keyframe:
`select_control_point`, `select_left_handle`, `select_right_handle`. -/
structure KeyframeSel where
  control : Bool
  left : Bool
  right : Bool
deriving DecidableEq, Repr

/-- A keyframe (control point): time coordinate `co[0]`, its selection
triple, and its interpolation kind. -/
structure Keyframe where
  frame : Int
  sel : KeyframeSel
  interp : Interp
deriving DecidableEq, Repr

/-- An FCurve (channel): the fields read or written by the navigator —
`select`, `hide`, `lock`, `mute` and `keyframe_points`. -/
structure FCurve where
  select : Bool
  hide : Bool
  lock : Bool
  mute : Bool
  keyframes : List Keyframe
deriving DecidableEq, Repr

/-- A keyframe counts as selected when any of its three sub-elements is
selected (the membership test of `get_selected_keyframes`). -/
def isSelectedKf (k : Keyframe) : Bool :=
  k.sel.control || k.sel.left || k.sel.right

/-- `dopesheet_helper.get_selected_keyframes`: the keyframes with at least
one selected sub-element.  The Python version returns dicts capturing the
three flags at call time; since our keyframes are immutable values, the
filtered keyframes themselves are that capture. -/
def get_selected_keyframes (ks : List Keyframe) : List Keyframe :=
  ks.filter isSelectedKf

/- ---------------------------------------------------------------------
SelectionTransferEngine: `GRAPH_OT_channel_navigator._transfer_keyframe_selection`
--------------------------------------------------------------------- -/

/-- `abs(k.co[0] - src_frame)`: distance of a keyframe's time from `t`. -/
def kfDist (t : Int) (k : Keyframe) : Nat :=
  (k.frame - t).natAbs

/-- Loop of Python `min(iterable, key=...)`: scan the remaining elements
`ks` (the next one having index `i` in the full list), keeping the index
`bi` and key value `bd` of the best element seen so far, replacing the
best only on a strict decrease — so the first minimum wins. -/
def pyMinIdxGo (t : Int) : List Keyframe → Nat → Nat → Nat → Nat
  | [], _, bi, _ => bi
  | k :: ks, i, bi, bd =>
      if kfDist t k < bd then pyMinIdxGo t ks (i + 1) i (kfDist t k)
      else pyMinIdxGo t ks (i + 1) bi bd

/-- Index of `min(to_fc.keyframe_points, key=lambda k: abs(k.co[0] - src_frame))`.
Python `min` raises `ValueError` on an empty sequence. -/
def pyMinIdx (ks : List Keyframe) (t : Int) : Except String Nat :=
  match ks with
  | [] => .error "min arg is an empty sequence"
  | k :: rest => .ok (pyMinIdxGo t rest 1 0 (kfDist t k))

/-- Total counterpart of `pyMinIdx` (the value on `[]` is irrelevant:
every call site guards against an empty list). -/
def pyMinIdxT (ks : List Keyframe) (t : Int) : Nat :=
  match ks with
  | [] => 0
  | k :: rest => pyMinIdxGo t rest 1 0 (kfDist t k)

/-- Update the element at index `i` in place (mutation of the Python
object returned by `min`); out-of-range indices leave the list unchanged
(never reached: the index comes from `pyMinIdx` on the same list). -/
def listUpdate (xs : List α) (i : Nat) (f : α → α) : List α :=
  match xs.get? i with
  | some x => xs.set i (f x)
  | none => xs

/-- Body of the per-item transfer loop:
`target_kf.select_control_point = item["control_point"]`, then the two
handle flags are set (only) when the captured source flag is true. -/
def applyItem (item : Keyframe) (k : Keyframe) : Keyframe :=
  { k with sel :=
      { control := item.sel.control
        left := if item.sel.left then true else k.sel.left
        right := if item.sel.right then true else k.sel.right } }

/-- `kf.select_control_point = False` etc.: clear all three flags. -/
def clearKfSel (k : Keyframe) : Keyframe :=
  { k with sel := ⟨false, false, false⟩ }

/-- One iteration of the transfer loop over the target's keyframes:
skipped when the target has no points (`if to_fc.keyframe_points:`),
otherwise the nearest keyframe is updated. -/
def transferOneE (ks : List Keyframe) (item : Keyframe) :
    Except String (List Keyframe) :=
  if ks.isEmpty then .ok ks
  else do
    let j ← pyMinIdx ks item.frame
    .ok (listUpdate ks j (applyItem item))

/-- Total counterpart of `transferOneE`. -/
def transferOne (ks : List Keyframe) (item : Keyframe) : List Keyframe :=
  if ks.isEmpty then ks
  else listUpdate ks (pyMinIdxT ks item.frame) (applyItem item)

/-- `_transfer_keyframe_selection` on two distinct fcurve objects
(the `from_fc == to_fc` identity check lives in the list-level wrapper
`transfer_keyframe_selection` below, where identity is index equality):
capture the selected items, and if any, deselect the source fcurve and
clear every source keyframe, select the target fcurve, and stamp each
captured item onto the target keyframe nearest in time. -/
def transferPairE (fromFc toFc : FCurve) : Except String (FCurve × FCurve) :=
  let selected := get_selected_keyframes fromFc.keyframes
  if selected.isEmpty then .ok (fromFc, toFc)
  else do
    let fromFc2 := { fromFc with
      select := false
      keyframes := fromFc.keyframes.map clearKfSel }
    let toKs ← selected.foldlM (fun ks item => transferOneE ks item) toFc.keyframes
    .ok (fromFc2, { toFc with select := true, keyframes := toKs })

/-- Total counterpart of `transferPairE`. -/
def transferPair (fromFc toFc : FCurve) : FCurve × FCurve :=
  let selected := get_selected_keyframes fromFc.keyframes
  if selected.isEmpty then (fromFc, toFc)
  else
    let fromFc2 := { fromFc with
      select := false
      keyframes := fromFc.keyframes.map clearKfSel }
    let toKs := selected.foldl (fun ks item => transferOne ks item) toFc.keyframes
    (fromFc2, { toFc with select := true, keyframes := toKs })

/-- `_transfer_keyframe_selection` at the level of the operator's fcurve
list: the guard `if from_fc == to_fc: return` is index equality (the list
holds pairwise-distinct objects).  Invalid indices return the list
unchanged — unreachable, every caller passes indices into the list. -/
def transfer_keyframe_selection (fcs : List FCurve) (src tgt : Nat) :
    Except String (List FCurve) :=
  if src = tgt then .ok fcs
  else
    match fcs.get? src, fcs.get? tgt with
    | some f, some t => do
        let r ← transferPairE f t
        .ok ((fcs.set src r.1).set tgt r.2)
    | _, _ => .ok fcs

/-- Total counterpart of `transfer_keyframe_selection`, used by the modal
state machine. -/
def transferAt (fcs : List FCurve) (src tgt : Nat) : List FCurve :=
  if src = tgt then fcs
  else
    match fcs.get? src, fcs.get? tgt with
    | some f, some t =>
        let r := transferPair f t
        (fcs.set src r.1).set tgt r.2
    | _, _ => fcs

/- ---------------------------------------------------------------------
HandleToggleStateMachine: `handle_selection.py`
--------------------------------------------------------------------- -/

/-- The requested tangent-handle side (`handle_direction`). -/
inductive HandleDir where
  | left
  | right
deriving DecidableEq, Repr

/-- `all_keyframes_have_selected_handle_for_fcurve`: every selected
keyframe of the fcurve has the requested handle selected (vacuously true
when nothing is selected). -/
def all_keyframes_have_selected_handle_for_fcurve
    (fc : FCurve) (dir : HandleDir) : Bool :=
  (get_selected_keyframes fc.keyframes).all fun k =>
    match dir with
    | .left => k.sel.left
    | .right => k.sel.right

/-- `update_keyframe_handle_selection` on the selection triple of one
keyframe. -/
def update_keyframe_handle_selection
    (s : KeyframeSel) (dir : HandleDir) (extend allSelected : Bool) :
    KeyframeSel :=
  match dir with
  | .left =>
      if allSelected then { s with left := false, control := true }
      else
        let s2 := if !extend then { s with right := false, control := false } else s
        { s2 with left := true }
  | .right =>
      if allSelected then { s with right := false, control := true }
      else
        let s2 := if !extend then { s with left := false, control := false } else s
        { s2 with right := true }

/-- `toggle_keyframe_handle_selection_for_fcurve`: update every selected
keyframe of the fcurve (the Python loop mutates exactly the keyframes
captured by `get_selected_keyframes`, each once; the selection predicate
is evaluated before any update, so this is a conditional map). -/
def toggle_keyframe_handle_selection_for_fcurve
    (fc : FCurve) (dir : HandleDir) (extend allSelected : Bool) : FCurve :=
  if (get_selected_keyframes fc.keyframes).isEmpty then fc
  else
    { fc with keyframes := fc.keyframes.map fun k =>
        if isSelectedKf k then
          { k with sel := update_keyframe_handle_selection k.sel dir extend allSelected }
        else k }

/-- `toggle_handle_selection` over the visible fcurves: query `all_selected`
across every selected fcurve first, then apply the toggle to each selected
fcurve (unselected fcurves untouched). -/
def toggle_handle_selection
    (fcs : List FCurve) (dir : HandleDir) (extend : Bool) : List FCurve :=
  let selectedF := fcs.filter (fun fc => fc.select)
  if selectedF.isEmpty then fcs
  else
    let allSelected := selectedF.all fun fc =>
      all_keyframes_have_selected_handle_for_fcurve fc dir
    fcs.map fun fc =>
      if fc.select then
        toggle_keyframe_handle_selection_for_fcurve fc dir extend allSelected
      else fc

/- ---------------------------------------------------------------------
Solo: `GRAPH_OT_channel_navigator._solo_channel`
--------------------------------------------------------------------- -/

/-- `_solo_channel` on the fcurve at index `t` of the operator's list;
returns the updated list and the new `current_idx`
(`self.fcurves.index(target_fc) = t`, the objects being distinct).
An out-of-range `t` is unreachable: callers pass an index of a hovered
row. -/
def solo_channel (fcs : List FCurve) (t : Nat) : List FCurve × Nat :=
  match fcs.get? t with
  | none => (fcs, t)
  | some tfc =>
      let visibleCount := (fcs.filter fun fc => !fc.hide).length
      let isSolo := visibleCount == 1 && !tfc.hide
      let fcs1 :=
        if isSolo then fcs.map fun fc => { fc with hide := false }
        else fcs.mapIdx fun i fc => { fc with hide := i != t }
      let fcs2 := fcs1.mapIdx fun i fc => { fc with select := i == t }
      (fcs2, t)

/- ---------------------------------------------------------------------
FocusPlanner: `GRAPH_OT_channel_navigator._apply_focus`
--------------------------------------------------------------------- -/

/-- The time coordinates of the control-point-selected keyframes of the
selected, non-hidden fcurves (`selected_keyframe_frames`). -/
def focusFrames (fcs : List FCurve) : List Int :=
  (fcs.filter fun fc => fc.select && !fc.hide).flatMap fun fc =>
    (fc.keyframes.filter fun k => k.sel.control).map fun k => k.frame

/-- `_apply_focus`: the `use_frame_range` argument passed to
`graph.view_selected_curves_range`, or `none` when the operator is not
invoked (auto-focus disabled, or no selected non-hidden fcurve).
`len(set(frames)) < 2` is `frames.dedup.length < 2`. -/
def apply_focus (fcs : List FCurve) (autoFocus : Bool) : Option Bool :=
  if !autoFocus then none
  else
    let selectedF := fcs.filter fun fc => fc.select && !fc.hide
    if selectedF.isEmpty then none
    else some (decide ((focusFrames fcs).dedup.length < 2))

/- ---------------------------------------------------------------------
NavigatorController: `GRAPH_OT_channel_navigator` invoke / modal / cancel
--------------------------------------------------------------------- -/

/-- The flag a dedicated key, icon click or drag-toggle operates on. -/
inductive ChanFlag where
  | hide
  | lock
  | mute
deriving DecidableEq, Repr

/-- Event types distinguished by the modal handler.  `keyOther n` stands
for any other key (the invoking key `self.key`, e.g. `Y`, is one). -/
inductive EType where
  | rightmouse
  | esc
  | leftmouse
  | wheelUp
  | wheelDown
  | keyH
  | keyL
  | keyM
  | mouseMove
  | keyOther (n : Nat)
deriving DecidableEq, Repr

/-- Event value (`event.value`). -/
inductive EValue where
  | press
  | release
deriving DecidableEq, Repr

/-- The horizontal zone the pointer is in, decoded exactly as the modal
handler does from `self.mouse.x` when the pointer is inside the popup:
`x >= hide_zone_x` is `hide`, else `x >= lock_zone_x` is `lock`, else
`x >= mute_zone_x` is `mute`, else (`x < mute_zone_x`) `text`. -/
inductive Zone where
  | hide
  | lock
  | mute
  | text
deriving DecidableEq, Repr

/-- One modal input event, with the pointer position abstracted to its
hit-test result: `hovered = some (d, z)` when `_get_hovered_display_idx`
returns display row `d` and the pointer sits in zone `z`, `none` when the
pointer is outside the popup rectangle. -/
structure NavEvent where
  etype : EType
  value : EValue
  hovered : Option (Nat × Zone)
  ctrl : Bool
deriving DecidableEq, Repr

/-- The configuration the navigator reads: `max_display_count`,
`auto_focus_on_channel_change`, and the invoking key `self.key`. -/
structure Config where
  maxDisplay : Nat
  autoFocus : Bool
  key : EType
deriving DecidableEq, Repr

/-- `SelectionSnapshot`: `original_selection`, `original_hide` and
`original_keyframe_selection`, keyed by the position of the fcurve in the
operator's list. -/
structure Snapshot where
  sel : List Bool
  hide : List Bool
  kfSel : List (List KeyframeSel)
deriving DecidableEq, Repr

/-- `_store_keyframe_selection` together with the two flag dictionaries
captured at invoke time. -/
def store_snapshot (fcs : List FCurve) : Snapshot where
  sel := fcs.map fun fc => fc.select
  hide := fcs.map fun fc => fc.hide
  kfSel := fcs.map fun fc => fc.keyframes.map fun k => k.sel

/-- The mutable per-invocation operator state (the `self.*` attributes the
modal handler reads or writes, minus pixel geometry, which is abstracted
into the events' hit-test results). -/
structure OpState where
  fcurves : List FCurve
  snap : Snapshot
  cfg : Config
  displayCount : Nat
  needsScroll : Bool
  scrollOffset : Nat
  currentIdx : Nat
  dragging : Bool
  dragMode : Option ChanFlag
  dragValue : Bool
  pressed : Bool
deriving DecidableEq, Repr

/-- `_find_active_index`: index of the first selected fcurve, else 0. -/
def find_active_index (fcs : List FCurve) : Nat :=
  match fcs.findIdx? (fun fc => fc.select) with
  | some i => i
  | none => 0

/-- The scroll offset computed by `setup`: try to center the current
channel (`max(0, org_idx - display_count // 2)`), clamped to
`max(0, len - display_count)`; `org_idx` is never `None` after invoke
(`_find_active_index` falls back to 0).  Natural subtraction is exactly
Python's `max(0, a - b)`. -/
def setupScrollOffset (n orgIdx displayCount : Nat) : Nat :=
  min (orgIdx - displayCount / 2) (n - displayCount)

/-- The operator state right after `invoke`/`setup` on a non-empty fcurve
list (pixel geometry omitted). -/
def invokeState (fcs : List FCurve) (cfg : Config) : OpState :=
  let orgIdx := find_active_index fcs
  let displayCount := min fcs.length cfg.maxDisplay
  { fcurves := fcs
    snap := store_snapshot fcs
    cfg := cfg
    displayCount := displayCount
    needsScroll := cfg.maxDisplay < fcs.length
    scrollOffset := setupScrollOffset fcs.length orgIdx displayCount
    currentIdx := orgIdx
    dragging := false
    dragMode := none
    dragValue := false
    pressed := false }

/-- `invoke`: aborts with `CANCELLED` (modelled as `none`) when there is
no fcurve, otherwise captures the snapshot and builds the state. -/
def invoke (fcs : List FCurve) (cfg : Config) : Option OpState :=
  if fcs.isEmpty then none else some (invokeState fcs cfg)

/-- `_display_idx_to_fcurve_idx` / `_get_fcurve_at_display_idx`:
`actual_idx = scroll_offset + (display_count - 1 - display_idx)`, valid
when `0 <= actual_idx < len` (computed in `Int` because Python's
subtraction does not truncate at zero). -/
def display_idx_to_fcurve_idx (s : OpState) (d : Nat) : Option Nat :=
  let a : Int := (s.scrollOffset : Int) + ((s.displayCount : Int) - 1 - (d : Int))
  if 0 ≤ a ∧ a < (s.fcurves.length : Int) then some a.toNat else none

/-- Read a flag of an fcurve. -/
def getFlag (f : ChanFlag) (fc : FCurve) : Bool :=
  match f with
  | .hide => fc.hide
  | .lock => fc.lock
  | .mute => fc.mute

/-- Write a flag of an fcurve. -/
def setFlag (f : ChanFlag) (b : Bool) (fc : FCurve) : FCurve :=
  match f with
  | .hide => { fc with hide := b }
  | .lock => { fc with lock := b }
  | .mute => { fc with mute := b }

/-- `_toggle_property_for_current`: flip a flag of the current channel
(`current_idx` is always in range after invoke; the out-of-range branch
is unreachable). -/
def toggle_property_for_current (s : OpState) (f : ChanFlag) : OpState :=
  match s.fcurves.get? s.currentIdx with
  | none => s
  | some fc =>
      { s with fcurves := s.fcurves.set s.currentIdx (setFlag f (!getFlag f fc) fc) }

/-- `_change_channel`: guard against the current index, range-check the
new index, then transfer the keyframe selection from the current to the
new channel and make it current.  The `else` arm (Python `from_fc` is
`None` or the same object) selects only the target; it is unreachable
after invoke since `current_idx` is always a valid index distinct from
`new_idx`. -/
def change_channel (s : OpState) (newIdx : Nat) : OpState :=
  if newIdx = s.currentIdx then s
  else if newIdx < s.fcurves.length then
    match s.fcurves.get? s.currentIdx with
    | some _ =>
        { s with fcurves := transferAt s.fcurves s.currentIdx newIdx
                 currentIdx := newIdx }
    | none =>
        { s with fcurves := s.fcurves.mapIdx fun i fc => { fc with select := i == newIdx }
                 currentIdx := newIdx }
  else s

/-- `_handle_click` (a `LEFTMOUSE` press): icon-zone presses toggle the
row's flag and begin a drag-toggle carrying the new value; a
`Ctrl`-press in the text zone solos the row. -/
def handle_click (s : OpState) (e : NavEvent) : OpState :=
  match e.hovered with
  | none => s
  | some (d, z) =>
      match display_idx_to_fcurve_idx s d with
      | none => s
      | some i =>
          match s.fcurves.get? i with
          | none => s
          | some fc =>
              match z with
              | .hide =>
                  { s with fcurves := s.fcurves.set i { fc with hide := !fc.hide }
                           dragging := true, dragMode := some .hide
                           dragValue := !fc.hide }
              | .lock =>
                  { s with fcurves := s.fcurves.set i { fc with lock := !fc.lock }
                           dragging := true, dragMode := some .lock
                           dragValue := !fc.lock }
              | .mute =>
                  { s with fcurves := s.fcurves.set i { fc with mute := !fc.mute }
                           dragging := true, dragMode := some .mute
                           dragValue := !fc.mute }
              | .text =>
                  if e.ctrl then
                    let r := solo_channel s.fcurves i
                    { s with fcurves := r.1, currentIdx := r.2 }
                  else s

/-- The scroll-handling section of `modal`. -/
def scrollStep (s : OpState) (e : NavEvent) : OpState :=
  if e.etype = .wheelUp ∧ s.needsScroll then
    { s with scrollOffset := s.scrollOffset - 1 }
  else if e.etype = .wheelDown ∧ s.needsScroll then
    { s with scrollOffset := min (s.fcurves.length - s.displayCount) (s.scrollOffset + 1) }
  else s

/-- The keyboard-shortcut section of `modal` (`H`/`L`/`M` presses). -/
def keyStep (s : OpState) (e : NavEvent) : OpState :=
  if e.etype = .keyH ∧ e.value = .press then toggle_property_for_current s .hide
  else if e.etype = .keyL ∧ e.value = .press then toggle_property_for_current s .lock
  else if e.etype = .keyM ∧ e.value = .press then toggle_property_for_current s .mute
  else s

/-- The `LEFTMOUSE` section of `modal`. -/
def clickStep (s : OpState) (e : NavEvent) : OpState :=
  if e.etype = .leftmouse ∧ e.value = .press then
    handle_click { s with pressed := true } e
  else if e.etype = .leftmouse ∧ e.value = .release then
    { s with pressed := false, dragging := false, dragMode := none }
  else s

/-- `_apply_drag_toggle` guarded by the drag conditions of `modal`:
stamp the drag value onto the hovered row (for any event type while a
drag is live). -/
def dragStep (s : OpState) (e : NavEvent) : OpState :=
  match s.dragMode, e.hovered with
  | some m, some (d, _) =>
      if s.pressed ∧ s.dragging then
        match display_idx_to_fcurve_idx s d with
        | some i =>
            match s.fcurves.get? i with
            | some fc => { s with fcurves := s.fcurves.set i (setFlag m s.dragValue fc) }
            | none => s
        | none => s
      else s
  | _, _ => s

/-- The mouse-over selection section of `modal`: when not dragging and
the pointer is in the text zone of a row holding a channel other than the
current one, change to that channel. -/
def hoverStep (s : OpState) (e : NavEvent) : OpState :=
  match e.hovered with
  | some (d, .text) =>
      if ¬s.dragging then
        match display_idx_to_fcurve_idx s d with
        | some newIdx => if newIdx ≠ s.currentIdx then change_channel s newIdx else s
        | none => s
      else s
  | _ => s

/-- `_restore_original_state` on the keyframes of one fcurve: write the
snapshot triples back positionally; indices beyond either list are left
as they are (`if i < len(fc.keyframe_points)`). -/
def restoreKfs : List Keyframe → List KeyframeSel → List Keyframe
  | ks, [] => ks
  | [], _ => []
  | k :: ks, sl :: sls => { k with sel := sl } :: restoreKfs ks sls

/-- `_restore_original_state`: write back every channel's `select` and
`hide` flag and every keyframe's selection triple from the snapshot (the
snapshot dictionaries are keyed by exactly the fcurves of the list, in
order). -/
def restore_original_state : List FCurve → List Bool → List Bool →
    List (List KeyframeSel) → List FCurve
  | fc :: fcs, sl :: sls, h :: hs, ks :: kss =>
      { fc with select := sl, hide := h, keyframes := restoreKfs fc.keyframes ks }
        :: restore_original_state fcs sls hs kss
  | fcs, _, _, _ => fcs

/-- Outcome of feeding one event (or a sequence) to the modal handler. -/
inductive StepResult where
  | running (s : OpState)
  | cancelled (fcs : List FCurve)
  | finished (fcs : List FCurve) (focus : Option Bool)
deriving DecidableEq, Repr

/-- One pass of `modal`: cancel and confirm are checked first; otherwise
the scroll, keyboard, click, drag and hover sections run in order on the
shared mutable state and the operator stays modal. -/
def modalStep (s : OpState) (e : NavEvent) : StepResult :=
  if e.etype = .rightmouse ∨ e.etype = .esc then
    .cancelled (restore_original_state s.fcurves s.snap.sel s.snap.hide s.snap.kfSel)
  else if e.etype = s.cfg.key ∧ e.value = .release then
    .finished s.fcurves (apply_focus s.fcurves s.cfg.autoFocus)
  else
    .running (hoverStep (dragStep (clickStep (keyStep (scrollStep s e) e) e) e) e)

/-- Feed a sequence of events to the modal handler, stopping at the first
terminal outcome. -/
def runModal (s : OpState) : List NavEvent → StepResult
  | [] => .running s
  | e :: es =>
      match modalStep s e with
      | .running s2 => runModal s2 es
      | r => r

/-- Projection of a `StepResult` to its still-running state (with a
default for the terminal cases); lets a closed term name the state
reached by a concrete run. -/
def runningStateD (r : StepResult) (d : OpState) : OpState :=
  match r with
  | .running s => s
  | _ => d

/- ---------------------------------------------------------------------
Concrete instances used by witnesses and counterexamples
--------------------------------------------------------------------- -/

/-- Shorthand: a keyframe from time, selection triple and interpolation. -/
def mkKf (t : Int) (c l r : Bool) (ip : Interp) : Keyframe :=
  ⟨t, ⟨c, l, r⟩, ip⟩

/-- Shorthand: a plain fcurve from its select flag and keyframes. -/
def mkFc (sel : Bool) (ks : List Keyframe) : FCurve :=
  ⟨sel, false, false, false, ks⟩

/-- The spec's tie-break example: target times 1, 5, 9, 20. -/
def c4ks : List Keyframe :=
  [mkKf 1 false false false .bezier, mkKf 5 false false false .bezier,
   mkKf 9 false false false .bezier, mkKf 20 false false false .bezier]

/-- Source channel for the C2 counterexample: one keyframe at time 0 with
a selected left handle, linear (non-Bezier) interpolation. -/
def c2src : FCurve := mkFc true [mkKf 0 false true false .linear]

/-- Target channel for the C2 counterexample: one unselected keyframe at
time 0, linear (non-Bezier) interpolation. -/
def c2tgt : FCurve := mkFc false [mkKf 0 false false false .linear]

/-- Source channel for the C3 counterexample: exactly one selected
control point (no handles) at time 10. -/
def c3src : FCurve := mkFc true [mkKf 10 true false false .bezier]

/-- Target channel for the C3 counterexample: its only point, at time 10,
has a stale left-handle selection. -/
def c3tgt : FCurve := mkFc false [mkKf 10 false true false .bezier]

/-- Batch for the C5 counterexample: one selected channel, one selected
point whose control point and right handle are selected and whose left
(requested) handle is cleared. -/
def c5fcs : List FCurve := [mkFc true [mkKf 0 true false true .bezier]]

/-- Batch for the C5 witness: the selected point is control-only. -/
def w5fcs : List FCurve := [mkFc true [mkKf 0 true false false .bezier]]

/-- Channels for the C6 witness: three, all visible, none selected yet. -/
def w6fcs : List FCurve := [mkFc false [], mkFc true [], mkFc false []]

/-- Channels for the C8 witness: one selected visible channel with
control-selected keyframes at two distinct times. -/
def w8fcs : List FCurve := [mkFc true [mkKf 1 true false false .bezier, mkKf 9 true false false .bezier]]

/-- A channel with nothing selected (C9 witness). -/
def w9src : FCurve := mkFc true [mkKf 3 false false false .bezier]

/-- A second channel (C9 witness). -/
def w9tgt : FCurve := mkFc false [mkKf 7 true false false .bezier]

/-- Ten keyframe-less channels (C7 witness: the spec's scroll-clamp
example with 10 channels). -/
def w7fcs : List FCurve := List.replicate 10 (mkFc false [])

/-- Configuration for the C7 witness: `maxVisibleRows = 4`. -/
def w7cfg : Config := ⟨4, false, .keyOther 0⟩

/-- A wheel-down event outside the popup. -/
def wheelDownEv : NavEvent := ⟨.wheelDown, .press, none, false⟩

/-- The C7 witness state after invoke. -/
def w7s0 : OpState := invokeState w7fcs w7cfg

/-- The C7 witness state after 100 wheel-down events. -/
def w7s : OpState := runningStateD (runModal w7s0 (List.replicate 100 wheelDownEv)) w7s0

/-- The C7 witness state after one more wheel-down event. -/
def w7s2 : OpState := runningStateD (modalStep w7s wheelDownEv) w7s0

/-- Channels for the C1 witness: two channels with keyframes. -/
def w1fcs : List FCurve :=
  [mkFc true [mkKf 0 true false false .bezier, mkKf 4 false true false .bezier],
   mkFc false [mkKf 2 false false false .bezier]]

/-- Configuration for the C1 witness. -/
def w1cfg : Config := ⟨8, false, .keyOther 0⟩

/-- C1 witness events: toggle hide of the current channel, hover the
other channel's text zone (transferring the selection), wheel. -/
def w1evts : List NavEvent :=
  [⟨.keyH, .press, none, false⟩,
   ⟨.mouseMove, .press, some (0, .text), false⟩,
   ⟨.wheelDown, .press, none, false⟩]

/-- An `ESC` cancel event. -/
def escEv : NavEvent := ⟨.esc, .press, none, false⟩

/-- The C1 witness state reached after `w1evts`. -/
def w1s : OpState :=
  runningStateD (runModal (invokeState w1fcs w1cfg) w1evts) (invokeState w1fcs w1cfg)

/-- The C10 witness state: two channels, the first current and selected
with no selected keyframes. -/
def w10s : OpState :=
  { fcurves := [mkFc true [mkKf 0 false false false .bezier], mkFc false [mkKf 5 true false false .bezier]]
    snap := store_snapshot [mkFc true [mkKf 0 false false false .bezier], mkFc false [mkKf 5 true false false .bezier]]
    cfg := ⟨8, false, .keyOther 0⟩
    displayCount := 2
    needsScroll := false
    scrollOffset := 0
    currentIdx := 0
    dragging := false
    dragMode := none
    dragValue := false
    pressed := false }

/-- The C10 witness event: pointer move over display row 0 (channel
index 1), text zone. -/
def w10ev : NavEvent := ⟨.mouseMove, .press, some (0, .text), false⟩

/-- Selection-state projection of one channel: its `select` flag, `hide`
flag and the selection triples of its keyframes — exactly the state the
snapshot captures and cancel restores. -/
def projSel (fc : FCurve) : Bool × Bool × List KeyframeSel :=
  (fc.select, fc.hide, fc.keyframes.map fun k => k.sel)

/-- Keyframe counts of the channels of a list: the structural data the
snapshot restore depends on. -/
def shape (fcs : List FCurve) : List Nat :=
  fcs.map fun fc => fc.keyframes.length

/-- The state components every non-terminal modal transition leaves
untouched: the snapshot, the configuration, the display geometry, and
the keyframe counts of every channel. -/
def stable (s s2 : OpState) : Prop :=
  s2.snap = s.snap ∧ s2.cfg = s.cfg ∧ s2.displayCount = s.displayCount
  ∧ s2.needsScroll = s.needsScroll ∧ shape s2.fcurves = shape s.fcurves

/-- The scroll-offset invariant: `0 ≤ offset ≤ max(0, channelCount -
displayCount)` — in natural-number arithmetic, where truncated
subtraction is exactly `max 0 (a - b)` and the lower bound is implicit. -/
def scrollBound (s : OpState) : Prop :=
  s.scrollOffset ≤ s.fcurves.length - s.displayCount

/- ---------------------------------------------------------------------
Theorems.  Spec of the Python `min` scan
--------------------------------------------------------------------- -/

/-- Invariant of the `min` scan: it either keeps the incoming best index
`bi` (and then the incoming best distance bounds every remaining
element), or returns the position (offset by `i`) of the first element
strictly below the incoming best that is a minimum of the remainder and
strictly below every element before it. -/
theorem pyMinIdxGo_spec (t : Int) :
    ∀ (ds : List Keyframe) (i bi bd : Nat),
      (pyMinIdxGo t ds i bi bd = bi ∧ ∀ d ∈ ds, bd ≤ kfDist t d)
      ∨ (∃ k x, ds.get? k = some x
          ∧ pyMinIdxGo t ds i bi bd = i + k
          ∧ kfDist t x < bd
          ∧ (∀ m y, ds.get? m = some y → kfDist t x ≤ kfDist t y)
          ∧ (∀ m y, m < k → ds.get? m = some y → kfDist t x < kfDist t y)) := by
  intro ds
  induction ds with
  | nil =>
      intro i bi bd
      exact Or.inl ⟨rfl, by simp⟩
  | cons d ds ih =>
      intro i bi bd
      by_cases hlt : kfDist t d < bd
      · rcases ih (i + 1) i (kfDist t d) with ⟨he, hall⟩ | ⟨k, x, hk, heq, hx, hmin, hstrict⟩
        · refine Or.inr ⟨0, d, rfl, ?_, hlt, ?_, ?_⟩
          · simp only [pyMinIdxGo, if_pos hlt]
            omega
          · intro m y hm
            cases m with
            | zero =>
                simp only [List.get?] at hm
                cases hm
                exact le_refl _
            | succ m =>
                simp only [List.get?] at hm
                exact hall y (List.get?_mem hm)
          · intro m y hm
            omega
        · refine Or.inr ⟨k + 1, x, ?_, ?_, lt_trans hx hlt, ?_, ?_⟩
          · simpa using hk
          · simp only [pyMinIdxGo, if_pos hlt]
            omega
          · intro m y hm
            cases m with
            | zero =>
                simp only [List.get?] at hm
                cases hm
                exact le_of_lt hx
            | succ m =>
                simp only [List.get?] at hm
                exact hmin m y hm
          · intro m y hmk hm
            cases m with
            | zero =>
                simp only [List.get?] at hm
                cases hm
                exact hx
            | succ m =>
                simp only [List.get?] at hm
                exact hstrict m y (by omega) hm
      · have hge : bd ≤ kfDist t d := le_of_not_lt hlt
        rcases ih (i + 1) bi bd with ⟨he, hall⟩ | ⟨k, x, hk, heq, hx, hmin, hstrict⟩
        · refine Or.inl ⟨?_, ?_⟩
          · simp only [pyMinIdxGo, if_neg hlt]
            exact he
          · intro y hy
            rcases List.mem_cons.mp hy with h0 | h1
            · subst h0; exact hge
            · exact hall y h1
        · refine Or.inr ⟨k + 1, x, ?_, ?_, hx, ?_, ?_⟩
          · simpa using hk
          · simp only [pyMinIdxGo, if_neg hlt]
            omega
          · intro m y hm
            cases m with
            | zero =>
                simp only [List.get?] at hm
                cases hm
                exact le_of_lt (lt_of_lt_of_le hx hge)
            | succ m =>
                simp only [List.get?] at hm
                exact hmin m y hm
          · intro m y hmk hm
            cases m with
            | zero =>
                simp only [List.get?] at hm
                cases hm
                exact lt_of_lt_of_le hx hge
            | succ m =>
                simp only [List.get?] at hm
                exact hstrict m y (by omega) hm

/-- C4: for every non-empty time-sorted target point list and every
source time `t`, the transfer's matching step returns (without error) the
index of a target point whose time minimizes the absolute distance to
`t`, with every earlier index at a strictly larger distance — so ties
resolve to the lower index, deterministically — and `transferOne` stamps
the source item exactly onto that point. -/
theorem C4_nearest_time_match (ks : List Keyframe) (t : Int)
    (hne : ks ≠ [])
    (hsorted : ks.Chain' fun a b => a.frame ≤ b.frame) :
    ∃ j x, pyMinIdx ks t = .ok j ∧ ks.get? j = some x
      ∧ (∀ m y, ks.get? m = some y → kfDist t x ≤ kfDist t y)
      ∧ (∀ m y, m < j → ks.get? m = some y → kfDist t x < kfDist t y)
      ∧ ∀ item : Keyframe, item.frame = t →
          transferOne ks item = listUpdate ks j (applyItem item) := by
  match ks with
  | [] => exact absurd rfl hne
  | k :: rest =>
      have hok : pyMinIdx (k :: rest) t = .ok (pyMinIdxGo t rest 1 0 (kfDist t k)) := rfl
      have hT : pyMinIdxT (k :: rest) t = pyMinIdxGo t rest 1 0 (kfDist t k) := rfl
      rcases pyMinIdxGo_spec t rest 1 0 (kfDist t k) with ⟨he, hall⟩ | ⟨k2, x, hk2, heq, hx, hmin, hstrict⟩
      · refine ⟨0, k, by rw [hok, he], rfl, ?_, ?_, ?_⟩
        · intro m y hm
          cases m with
          | zero =>
              simp only [List.get?] at hm
              cases hm
              exact le_refl _
          | succ m =>
              simp only [List.get?] at hm
              exact hall y (List.get?_mem hm)
        · intro m y hm hm2
          omega
        · intro item hit
          simp only [transferOne, List.isEmpty_cons, Bool.false_eq_true, if_false]
          rw [hit, hT, he]
      · refine ⟨k2 + 1, x, ?_, by simpa using hk2, ?_, ?_, ?_⟩
        · rw [hok, heq, Nat.add_comm]
        · intro m y hm
          cases m with
          | zero =>
              simp only [List.get?] at hm
              cases hm
              exact le_of_lt hx
          | succ m =>
              simp only [List.get?] at hm
              exact hmin m y hm
        · intro m y hmk hm
          cases m with
          | zero =>
              simp only [List.get?] at hm
              cases hm
              exact hx
          | succ m =>
              simp only [List.get?] at hm
              exact hstrict m y (by omega) hm
        · intro item hit
          simp only [transferOne, List.isEmpty_cons, Bool.false_eq_true, if_false]
          rw [hit, hT, heq, Nat.add_comm]

/-- C4 witness: with target times `[1, 5, 9, 20]` and source time 7 the
match is index 1 (time 5), the lower-index tie winner, not time 9. -/
theorem C4_nearest_time_match_witness :
    (c4ks ≠ [] ∧ c4ks.Chain' fun a b => a.frame ≤ b.frame)
    ∧ pyMinIdx c4ks 7 = Except.ok 1
    ∧ ∃ j x, pyMinIdx c4ks 7 = .ok j ∧ c4ks.get? j = some x
        ∧ (∀ m y, c4ks.get? m = some y → kfDist 7 x ≤ kfDist 7 y)
        ∧ (∀ m y, m < j → c4ks.get? m = some y → kfDist 7 x < kfDist 7 y)
        ∧ ∀ item : Keyframe, item.frame = 7 →
            transferOne c4ks item = listUpdate c4ks j (applyItem item) :=
  ⟨⟨by decide, by norm_num [c4ks, mkKf, List.chain'_cons]⟩, rfl,
    C4_nearest_time_match c4ks 7 (by decide) (by norm_num [c4ks, mkKf, List.chain'_cons])⟩

/- ---------------------------------------------------------------------
C2: handle propagation and interpolation kind
--------------------------------------------------------------------- -/

/-- C2 counterexample: both points are linear (non-Bezier) interpolated,
only the source's left handle is selected — and the transfer still sets
the left-handle flag on the matched target point, where the claim says a
handle flag is propagated only when both points are Bezier-interpolated. -/
theorem C2_counterexample :
    (∀ k ∈ c2src.keyframes, k.interp = Interp.linear)
    ∧ (∀ k ∈ c2tgt.keyframes, k.interp = Interp.linear)
    ∧ ((c2src.keyframes.map fun k => k.sel) = [⟨false, true, false⟩])
    ∧ (((transferPair c2src c2tgt).2.keyframes.map fun k => k.sel)
        = [⟨false, true, false⟩]) := by
  refine ⟨?_, ?_, ?_, ?_⟩ <;> decide

/-- C2 amended: for every (source-point, target-point) pair processed by
the selection transfer, the control-selection flag is always propagated
(overwritten with the source value), and a left or right handle selection
flag is set on the target whenever it is selected on the source point —
unconditionally, regardless of the interpolation kind of either point,
which the per-pair update never reads. -/
theorem C2_amended_handle_propagation (item k : Keyframe) :
    (applyItem item k).sel.control = item.sel.control
    ∧ (applyItem item k).sel.left = (item.sel.left || k.sel.left)
    ∧ (applyItem item k).sel.right = (item.sel.right || k.sel.right)
    ∧ (applyItem item k).interp = k.interp
    ∧ (applyItem item k).frame = k.frame := by
  refine ⟨rfl, ?_, ?_, rfl, rfl⟩ <;>
    cases hl : item.sel.left <;> cases hr : item.sel.right <;>
      simp [applyItem, hl, hr]

/- ---------------------------------------------------------------------
C3: replace-mode clearing
--------------------------------------------------------------------- -/

/-- C3 counterexample: the exact scenario of the claim — one selected
control point, no selected handles, at time 10 in channel A — transferred
to a channel B whose nearest point carries a stale left-handle selection.
The source is fully cleared, but B's nearest point ends with BOTH the
control flag and the left-handle flag set: the target's handle flag is
not cleared before setting, contradicting "exactly the control flag set
(no handle flags)". -/
theorem C3_counterexample :
    ((c3src.keyframes.map fun k => k.sel) = [⟨true, false, false⟩])
    ∧ (((transferPair c3src c3tgt).1.keyframes.map fun k => k.sel)
        = [⟨false, false, false⟩])
    ∧ (((transferPair c3src c3tgt).2.keyframes.map fun k => k.sel)
        = [⟨true, true, false⟩]) := by
  refine ⟨?_, ?_, ?_⟩ <;> decide

/-- C3 amended: in replace mode, when the source has at least one
selected point, the transfer deselects the source channel and clears all
three sub-elements of every source point; on the matched target point the
control flag is overwritten with the source value (cleared before
setting), but the handle flags are only ever set — a handle flag already
set on the target persists, so the claim's scenario yields exactly the
control flag only when the matched target point had no stale handle
selection. -/
theorem C3_amended_replace_semantics (fromFc toFc : FCurve)
    (h : get_selected_keyframes fromFc.keyframes ≠ []) :
    ((transferPair fromFc toFc).1.select = false
      ∧ ∀ k ∈ (transferPair fromFc toFc).1.keyframes,
          k.sel = (⟨false, false, false⟩ : KeyframeSel))
    ∧ ((transferPair fromFc toFc).2.select = true)
    ∧ (∀ item k, (applyItem item k).sel
        = ⟨item.sel.control, item.sel.left || k.sel.left,
           item.sel.right || k.sel.right⟩) := by
  have hne : (get_selected_keyframes fromFc.keyframes).isEmpty = false := by
    simpa [List.isEmpty_iff] using h
  refine ⟨⟨?_, ?_⟩, ?_, ?_⟩
  · simp [transferPair, hne]
  · intro k hk
    simp only [transferPair, hne, Bool.false_eq_true, if_false] at hk
    rcases List.mem_map.mp hk with ⟨y, _, hy⟩
    rw [← hy]
    rfl
  · simp [transferPair, hne]
  · intro item k
    cases hl : item.sel.left <;> cases hr : item.sel.right <;>
      simp [applyItem, hl, hr]

/-- C3 witness: the amended behaviour at the counterexample input. -/
theorem C3_amended_replace_semantics_witness :
    get_selected_keyframes c3src.keyframes ≠ []
    ∧ (((transferPair c3src c3tgt).1.select = false
        ∧ ∀ k ∈ (transferPair c3src c3tgt).1.keyframes,
            k.sel = (⟨false, false, false⟩ : KeyframeSel))
      ∧ ((transferPair c3src c3tgt).2.select = true)
      ∧ (∀ item k, (applyItem item k).sel
          = ⟨item.sel.control, item.sel.left || k.sel.left,
             item.sel.right || k.sel.right⟩)) :=
  ⟨by decide, C3_amended_replace_semantics c3src c3tgt (by decide)⟩

/- ---------------------------------------------------------------------
C9: transfer no-ops and totality
--------------------------------------------------------------------- -/

/-- The guarded per-item transfer step never raises: it agrees with its
total counterpart. -/
theorem transferOneE_ok (ks : List Keyframe) (item : Keyframe) :
    transferOneE ks item = .ok (transferOne ks item) := by
  cases ks with
  | nil => rfl
  | cons k rest =>
      simp only [transferOneE, transferOne, List.isEmpty_cons, Bool.false_eq_true,
        if_false]
      rfl

/-- The transfer loop over all captured items never raises. -/
theorem foldlM_transferOne_ok (items : List Keyframe) :
    ∀ ks : List Keyframe,
      (items.foldlM (fun ks item => transferOneE ks item) ks)
        = .ok (items.foldl (fun ks item => transferOne ks item) ks) := by
  induction items with
  | nil => intro ks; rfl
  | cons a items ih =>
      intro ks
      rw [List.foldlM_cons, transferOneE_ok]
      simpa using ih (transferOne ks a)

/-- `_transfer_keyframe_selection` on a pair never raises. -/
theorem transferPairE_ok (fromFc toFc : FCurve) :
    transferPairE fromFc toFc = .ok (transferPair fromFc toFc) := by
  by_cases h : (get_selected_keyframes fromFc.keyframes).isEmpty = true
  · simp [transferPairE, transferPair, h]
  · simp only [Bool.not_eq_true] at h
    simp only [transferPairE, transferPair, h, Bool.false_eq_true, if_false]
    rw [foldlM_transferOne_ok]
    rfl

/-- The per-item loop started from an empty target list keeps it empty
(every iteration takes the `if to_fc.keyframe_points:` guard). -/
theorem foldl_transferOne_nil (items : List Keyframe) :
    items.foldl (fun ks item => transferOne ks item) ([] : List Keyframe) = [] := by
  induction items with
  | nil => rfl
  | cons a items ih => simpa [transferOne] using ih

/-- C9: `transfer(A, A, _)` returns the fcurve list unchanged without
raising; a source with no selected point leaves both channels untouched;
the transfer always returns `ok` (never raises); and a target channel
with no points has its (empty) point list unchanged — the per-point loop
is skipped. -/
theorem C9_transfer_noop_safety :
    (∀ (fcs : List FCurve) (i : Nat), transfer_keyframe_selection fcs i i = .ok fcs)
    ∧ (∀ f t : FCurve, get_selected_keyframes f.keyframes = [] →
        transferPairE f t = .ok (f, t))
    ∧ (∀ f t : FCurve, transferPairE f t = .ok (transferPair f t))
    ∧ (∀ f t : FCurve, t.keyframes = [] → (transferPair f t).2.keyframes = []) := by
  refine ⟨?_, ?_, transferPairE_ok, ?_⟩
  · intro fcs i
    simp [transfer_keyframe_selection]
  · intro f t h
    simp [transferPairE, h]
  · intro f t h
    by_cases hsel : (get_selected_keyframes f.keyframes).isEmpty = true
    · simp [transferPair, hsel, h]
    · simp only [Bool.not_eq_true] at hsel
      simp only [transferPair, hsel, Bool.false_eq_true, if_false]
      rw [h]
      exact foldl_transferOne_nil _

/-- C9 witness: a source with nothing selected transfers to a distinct
target as a no-op, without error. -/
theorem C9_transfer_noop_safety_witness :
    get_selected_keyframes w9src.keyframes = []
    ∧ transferPairE w9src w9tgt = .ok (w9src, w9tgt) :=
  ⟨by decide, C9_transfer_noop_safety.2.1 w9src w9tgt (by decide)⟩

/- ---------------------------------------------------------------------
C8: focus decision
--------------------------------------------------------------------- -/

/-- C8: on commit with auto-focus enabled and at least one selected
non-hidden channel, the focus decision counts the distinct time
coordinates of the control-selected points of those channels: at most 1
distinct time frames the configured playback range
(`use_frame_range = true`), 2 or more frame the keyframe extents
(`use_frame_range = false`). -/
theorem C8_focus_decision (fcs : List FCurve)
    (h : (fcs.filter fun fc => fc.select && !fc.hide) ≠ []) :
    ((focusFrames fcs).toFinset.card ≤ 1 → apply_focus fcs true = some true)
    ∧ (2 ≤ (focusFrames fcs).toFinset.card → apply_focus fcs true = some false) := by
  have hne : (fcs.filter fun fc => fc.select && !fc.hide).isEmpty = false := by
    simpa [List.isEmpty_iff] using h
  have hcard : (focusFrames fcs).toFinset.card = (focusFrames fcs).dedup.length :=
    List.card_toFinset _
  constructor
  · intro hle
    have hlt : (focusFrames fcs).dedup.length < 2 := by omega
    simp [apply_focus, hne, hlt]
  · intro hge
    have hlt : ¬((focusFrames fcs).dedup.length < 2) := by omega
    simp [apply_focus, hne, hlt]

/-- C8 witness: one selected visible channel with control-selected points
at exactly 2 distinct times frames the keyframe extents. -/
theorem C8_focus_decision_witness :
    ((w8fcs.filter fun fc => fc.select && !fc.hide) ≠ [])
    ∧ 2 ≤ (focusFrames w8fcs).toFinset.card
    ∧ apply_focus w8fcs true = some false :=
  ⟨by decide, by decide, (C8_focus_decision w8fcs (by decide)).2 (by decide)⟩

/- ---------------------------------------------------------------------
C6: Solo / Unsolo
--------------------------------------------------------------------- -/

/-- C6: soloing the channel at index `t`: when more than one channel is
visible or the target is hidden, every channel except the target ends
hidden; when exactly one channel is visible and it is the target, every
channel ends visible; in both cases exactly the target ends selected and
becomes the current channel. -/
theorem C6_solo_unsolo (fcs : List FCurve) (t : Nat) (tfc : FCurve)
    (ht : fcs.get? t = some tfc) :
    (solo_channel fcs t).2 = t
    ∧ (∀ i fc2, (solo_channel fcs t).1.get? i = some fc2 → fc2.select = (i == t))
    ∧ ((1 < (fcs.filter fun fc => !fc.hide).length ∨ tfc.hide = true) →
        ∀ i fc2, (solo_channel fcs t).1.get? i = some fc2 → fc2.hide = (i != t))
    ∧ (((fcs.filter fun fc => !fc.hide).length = 1 ∧ tfc.hide = false) →
        ∀ i fc2, (solo_channel fcs t).1.get? i = some fc2 → fc2.hide = false) := by
  simp only [solo_channel, ht]
  refine ⟨trivial, ?_, ?_, ?_⟩
  · intro i fc2 hi
    simp only [List.get?_eq_getElem?, List.getElem?_mapIdx] at hi
    rcases Option.map_eq_some'.mp hi with ⟨y, _, hy⟩
    rw [← hy]
  · intro hcond i fc2 hi
    have hiso : ((fcs.filter fun fc => !fc.hide).length == 1 && !tfc.hide) = false := by
      rcases hcond with hgt | hhide
      · have : ((fcs.filter fun fc => !fc.hide).length == 1) = false := by
          simp only [beq_eq_false_iff_ne, ne_eq]
          omega
        simp [this]
      · simp [hhide]
    rw [hiso] at hi
    simp only [Bool.false_eq_true, if_false, List.get?_eq_getElem?,
      List.getElem?_mapIdx] at hi
    rcases Option.map_eq_some'.mp hi with ⟨y, hy0, hy⟩
    rcases Option.map_eq_some'.mp hy0 with ⟨z, _, hz⟩
    rw [← hy, ← hz]
  · intro hcond i fc2 hi
    have hiso : ((fcs.filter fun fc => !fc.hide).length == 1 && !tfc.hide) = true := by
      simp [hcond.1, hcond.2]
    rw [hiso] at hi
    simp only [if_true, List.get?_eq_getElem?, List.getElem?_mapIdx] at hi
    rcases Option.map_eq_some'.mp hi with ⟨y, hy0, hy⟩
    simp only [List.getElem?_map] at hy0
    rcases Option.map_eq_some'.mp hy0 with ⟨z, _, hz⟩
    rw [← hy, ← hz]

/-- C6 witness: soloing the middle of three all-visible channels. -/
theorem C6_solo_unsolo_witness :
    w6fcs.get? 1 = some (mkFc true [])
    ∧ ((solo_channel w6fcs 1).2 = 1
      ∧ (∀ i fc2, (solo_channel w6fcs 1).1.get? i = some fc2 → fc2.select = (i == 1))
      ∧ ((1 < (w6fcs.filter fun fc => !fc.hide).length ∨ (mkFc true []).hide = true) →
          ∀ i fc2, (solo_channel w6fcs 1).1.get? i = some fc2 → fc2.hide = (i != 1))
      ∧ (((w6fcs.filter fun fc => !fc.hide).length = 1 ∧ (mkFc true []).hide = false) →
          ∀ i fc2, (solo_channel w6fcs 1).1.get? i = some fc2 → fc2.hide = false)) :=
  ⟨rfl, C6_solo_unsolo w6fcs 1 (mkFc true []) rfl⟩

/- ---------------------------------------------------------------------
C5: handle-toggle round trip
--------------------------------------------------------------------- -/

/-- A non-empty list is not `isEmpty`. -/
theorem isEmpty_false_of_ne_nil {α : Type} (l : List α) (h : l ≠ []) :
    l.isEmpty = false := by
  cases l with
  | nil => exact absurd rfl h
  | cons a l => rfl

/-- The handle toggle never changes a channel's select flag. -/
theorem toggleFc_select (fc : FCurve) (dir : HandleDir) (e a : Bool) :
    (toggle_keyframe_handle_selection_for_fcurve fc dir e a).select = fc.select := by
  unfold toggle_keyframe_handle_selection_for_fcurve
  split <;> rfl

/-- A channel with no selected keyframe is untouched by the toggle. -/
theorem toggleFc_of_empty (fc : FCurve) (dir : HandleDir) (e a : Bool)
    (h : get_selected_keyframes fc.keyframes = []) :
    toggle_keyframe_handle_selection_for_fcurve fc dir e a = fc := by
  simp [toggle_keyframe_handle_selection_for_fcurve, h]

/-- The per-keyframe map applied by the first toggle (deselect branch not
taken), then by the second (deselect branch taken), restores a
control-only keyframe. -/
theorem toggle_kf_roundtrip (k : Keyframe) (dir : HandleDir)
    (hksel : k.sel = ⟨true, false, false⟩) :
    (fun k => if isSelectedKf k then
        { k with sel := update_keyframe_handle_selection k.sel dir false true } else k)
      ((fun k => if isSelectedKf k then
        { k with sel := update_keyframe_handle_selection k.sel dir false false } else k) k)
      = k := by
  obtain ⟨f, s, ip⟩ := k
  simp only at hksel
  subst hksel
  cases dir <;> rfl

/-- An unselected keyframe passes through both per-keyframe maps. -/
theorem toggle_kf_unselected (k : Keyframe) (dir : HandleDir) (e a : Bool)
    (hk : isSelectedKf k = false) :
    (fun k => if isSelectedKf k then
        { k with sel := update_keyframe_handle_selection k.sel dir e a } else k) k = k := by
  simp [hk]

/-- After the first toggle of a control-only keyframe, the requested
handle is selected (and the keyframe still counts as selected). -/
theorem toggle_kf_first_handle (k : Keyframe) (dir : HandleDir)
    (hksel : k.sel = ⟨true, false, false⟩) :
    isSelectedKf { k with sel := update_keyframe_handle_selection k.sel dir false false } = true
    ∧ (match dir with
        | HandleDir.left =>
            ({ k with sel := update_keyframe_handle_selection k.sel dir false false }).sel.left
        | HandleDir.right =>
            ({ k with sel := update_keyframe_handle_selection k.sel dir false false }).sel.right)
        = true := by
  obtain ⟨f, s, ip⟩ := k
  simp only at hksel
  subst hksel
  cases dir <;> exact ⟨rfl, rfl⟩

/-- A batch of control-only channels in which some selected channel has a
selected keyframe fails the `all_selected` query. -/
theorem allKf_controlOnly_false (fc : FCurve) (dir : HandleDir)
    (hfc : ∀ k ∈ fc.keyframes, isSelectedKf k = true → k.sel = ⟨true, false, false⟩)
    (hne : get_selected_keyframes fc.keyframes ≠ []) :
    all_keyframes_have_selected_handle_for_fcurve fc dir = false := by
  obtain ⟨k0, hk0⟩ := List.exists_mem_of_ne_nil _ hne
  have hm : k0 ∈ fc.keyframes := (List.mem_filter.mp hk0).1
  have hs : isSelectedKf k0 = true := (List.mem_filter.mp hk0).2
  have hsel := hfc k0 hm hs
  rw [all_keyframes_have_selected_handle_for_fcurve, List.all_eq_false]
  refine ⟨k0, hk0, ?_⟩
  cases dir <;> simp [hsel]

/-- After the first toggle, every selected keyframe of a control-only
channel carries the requested handle: the `all_selected` query of the
second toggle succeeds on it. -/
theorem allKf_after_first (fc : FCurve) (dir : HandleDir)
    (hfc : ∀ k ∈ fc.keyframes, isSelectedKf k = true → k.sel = ⟨true, false, false⟩) :
    all_keyframes_have_selected_handle_for_fcurve
      (toggle_keyframe_handle_selection_for_fcurve fc dir false false) dir = true := by
  by_cases hsel : get_selected_keyframes fc.keyframes = []
  · rw [toggleFc_of_empty _ _ _ _ hsel]
    rw [all_keyframes_have_selected_handle_for_fcurve, hsel]
    rfl
  · have hie : (get_selected_keyframes fc.keyframes).isEmpty = false := by
      simpa [List.isEmpty_iff] using hsel
    rw [show toggle_keyframe_handle_selection_for_fcurve fc dir false false
        = { fc with keyframes := fc.keyframes.map fun k =>
            if isSelectedKf k then
              { k with sel := update_keyframe_handle_selection k.sel dir false false }
            else k }
      from by simp [toggle_keyframe_handle_selection_for_fcurve, hie]]
  
    rw [all_keyframes_have_selected_handle_for_fcurve, List.all_eq_true]
    intro k2 hk2
    have hk2m := (List.mem_filter.mp hk2).1
    have hk2s := (List.mem_filter.mp hk2).2
    simp only at hk2m
    obtain ⟨k, hkm, hke⟩ := List.mem_map.mp hk2m
    by_cases hk : isSelectedKf k = true
    · have hksel := hfc k hkm hk
      rw [if_pos hk] at hke
      rw [← hke]
      exact (toggle_kf_first_handle k dir hksel).2
    · rw [if_neg hk] at hke
      rw [← hke] at hk2s
      exact absurd hk2s (by simp [hk])

/-- C5 counterexample: one selected channel whose one selected point has
the control point AND the right handle selected, the requested left
handle cleared — matching the claim's description of the original state
("control-point selected and the requested handle cleared").  Toggling
the left handle twice does not restore it: the right-handle selection is
lost. -/
theorem C5_counterexample :
    ((c5fcs.map fun fc => fc.keyframes.map fun k => k.sel) = [[⟨true, false, true⟩]])
    ∧ ((c5fcs.map fun fc => fc.select) = [true])
    ∧ toggle_handle_selection (toggle_handle_selection c5fcs .left false) .left false
        ≠ c5fcs := by
  refine ⟨by decide, by decide, by decide⟩

/-- C5 amended: toggling the same handle twice with `extend = false` on
an unchanged selection restores the batch, provided every selected point
of every selected channel starts control-only — control point selected
and BOTH handles cleared (a selected opposite handle would be lost, as
the counterexample shows). -/
theorem C5_amended_round_trip (fcs : List FCurve) (dir : HandleDir)
    (h : ∀ fc ∈ fcs, fc.select = true → ∀ k ∈ fc.keyframes,
        isSelectedKf k = true → k.sel = ⟨true, false, false⟩) :
    toggle_handle_selection (toggle_handle_selection fcs dir false) dir false = fcs := by
  by_cases hA : ((fcs.filter fun fc => fc.select).isEmpty : Bool) = true
  · have h1 : toggle_handle_selection fcs dir false = fcs := by
      simp [toggle_handle_selection, hA]
    rw [h1]
    simp [toggle_handle_selection, hA]
  · have hAf : ((fcs.filter fun fc => fc.select).isEmpty : Bool) = false := by
      simpa using hA
    by_cases hB : ∀ fc ∈ fcs, fc.select = true → get_selected_keyframes fc.keyframes = []
    · have hid : toggle_handle_selection fcs dir false = fcs := by
        simp only [toggle_handle_selection, hAf, Bool.false_eq_true, if_false]
        have hpt : ∀ fc ∈ fcs,
            (if fc.select then
              toggle_keyframe_handle_selection_for_fcurve fc dir false
                ((fcs.filter fun fc => fc.select).all fun fc =>
                  all_keyframes_have_selected_handle_for_fcurve fc dir)
             else fc) = fc := by
          intro fc hfcm
          by_cases hs : fc.select = true
          · rw [if_pos hs, toggleFc_of_empty _ _ _ _ (hB fc hfcm hs)]
          · rw [if_neg hs]
        rw [List.map_congr_left hpt, List.map_id']
      rw [hid, hid]
    · push_neg at hB
      obtain ⟨fc0, hfc0m, hfc0s, hfc0ne⟩ := hB
      have hall1 : ((fcs.filter fun fc => fc.select).all fun fc =>
          all_keyframes_have_selected_handle_for_fcurve fc dir) = false := by
        rw [List.all_eq_false]
        refine ⟨fc0, List.mem_filter.mpr ⟨hfc0m, hfc0s⟩, ?_⟩
        rw [allKf_controlOnly_false fc0 dir (h fc0 hfc0m hfc0s) hfc0ne]
        simp
      have hS1 : toggle_handle_selection fcs dir false
          = fcs.map fun fc => if fc.select then
              toggle_keyframe_handle_selection_for_fcurve fc dir false false else fc := by
        simp only [toggle_handle_selection, hAf, Bool.false_eq_true, if_false, hall1]
      have hg1sel : ∀ fc : FCurve,
          ((if fc.select then
            toggle_keyframe_handle_selection_for_fcurve fc dir false false
           else fc)).select = fc.select := by
        intro fc
        by_cases hs : fc.select = true
        · rw [if_pos hs, toggleFc_select]
        · rw [if_neg hs]
      have hfilter : ((fcs.map fun fc => if fc.select then
            toggle_keyframe_handle_selection_for_fcurve fc dir false false else fc).filter
              fun fc => fc.select)
          = ((fcs.filter fun fc => fc.select).map fun fc => if fc.select then
              toggle_keyframe_handle_selection_for_fcurve fc dir false false else fc) := by
        rw [List.filter_map]
        congr 1
        apply List.filter_congr
        intro fc _
        simp only [Function.comp_apply]
        rw [hg1sel fc]
      have hne0 : (fcs.filter fun fc => fc.select) ≠ [] := by
        intro hh
        rw [hh] at hAf
        simp at hAf
      have hAf1 : (((fcs.map fun fc => if fc.select then
            toggle_keyframe_handle_selection_for_fcurve fc dir false false else fc).filter
              fun fc => fc.select).isEmpty : Bool) = false := by
        rw [hfilter]
        apply isEmpty_false_of_ne_nil
        simpa [List.map_eq_nil_iff] using hne0
      have hall2 : (((fcs.map fun fc => if fc.select then
            toggle_keyframe_handle_selection_for_fcurve fc dir false false else fc).filter
              fun fc => fc.select).all fun fc =>
                all_keyframes_have_selected_handle_for_fcurve fc dir) = true := by
        rw [hfilter, List.all_eq_true]
        intro fc1 hfc1
        obtain ⟨fc, hfcm, hfce⟩ := List.mem_map.mp hfc1
        have hfcsel : fc.select = true := (List.mem_filter.mp hfcm).2
        have hfcmem : fc ∈ fcs := (List.mem_filter.mp hfcm).1
        rw [if_pos hfcsel] at hfce
        rw [← hfce]
        exact allKf_after_first fc dir (h fc hfcmem hfcsel)
      have hS2 : toggle_handle_selection (fcs.map fun fc => if fc.select then
            toggle_keyframe_handle_selection_for_fcurve fc dir false false else fc) dir false
          = (fcs.map fun fc => if fc.select then
              toggle_keyframe_handle_selection_for_fcurve fc dir false false else fc).map
                fun fc => if fc.select then
                  toggle_keyframe_handle_selection_for_fcurve fc dir false true else fc := by
        simp only [toggle_handle_selection, hAf1, Bool.false_eq_true, if_false, hall2]
      rw [hS1, hS2, List.map_map]
      have hpt : ∀ fc ∈ fcs,
          ((fun fc => if fc.select then
              toggle_keyframe_handle_selection_for_fcurve fc dir false true else fc)
           ∘ fun fc => if fc.select then
              toggle_keyframe_handle_selection_for_fcurve fc dir false false else fc) fc
          = fc := by
        intro fc hfcm
        simp only [Function.comp_apply]
        by_cases hs : fc.select = true
        · rw [if_pos hs]
          have hsel1 : (toggle_keyframe_handle_selection_for_fcurve fc dir false false).select
              = true := by rw [toggleFc_select]; exact hs
          rw [if_pos hsel1]
          by_cases hke : get_selected_keyframes fc.keyframes = []
          · rw [toggleFc_of_empty _ _ _ _ hke, toggleFc_of_empty _ _ _ _ hke]
          · have hie : (get_selected_keyframes fc.keyframes).isEmpty = false := by
              simpa [List.isEmpty_iff] using hke
            rw [show toggle_keyframe_handle_selection_for_fcurve fc dir false false
                = { fc with keyframes := fc.keyframes.map fun k =>
                    if isSelectedKf k then
                      { k with sel := update_keyframe_handle_selection k.sel dir false false }
                    else k }
              from by simp [toggle_keyframe_handle_selection_for_fcurve, hie]]
            obtain ⟨k0, hk0⟩ := List.exists_mem_of_ne_nil _ hke
            have hk0m : k0 ∈ fc.keyframes := (List.mem_filter.mp hk0).1
            have hk0s : isSelectedKf k0 = true := (List.mem_filter.mp hk0).2
            have hk0sel := h fc hfcm hs k0 hk0m hk0s
            have hie2 : (get_selected_keyframes ((fc.keyframes.map fun k =>
                if isSelectedKf k then
                  { k with sel := update_keyframe_handle_selection k.sel dir false false }
                else k))).isEmpty = false := by
              have hmem : ({ k0 with
                  sel := update_keyframe_handle_selection k0.sel dir false false } : Keyframe)
                  ∈ get_selected_keyframes (fc.keyframes.map fun k =>
                    if isSelectedKf k then
                      { k with sel := update_keyframe_handle_selection k.sel dir false false }
                    else k) := by
                rw [get_selected_keyframes, List.mem_filter]
                constructor
                · have h0 := List.mem_map_of_mem (fun k =>
                    if isSelectedKf k then
                      { k with sel := update_keyframe_handle_selection k.sel dir false false }
                    else k) hk0m
                  simpa [hk0s] using h0
                · exact (toggle_kf_first_handle k0 dir hk0sel).1
              exact isEmpty_false_of_ne_nil _ (List.ne_nil_of_mem hmem)
            rw [show toggle_keyframe_handle_selection_for_fcurve
                ({ fc with keyframes := fc.keyframes.map fun k =>
                    if isSelectedKf k then
                      { k with sel := update_keyframe_handle_selection k.sel dir false false }
                    else k }) dir false true
                = { fc with keyframes := (fc.keyframes.map fun k =>
                    if isSelectedKf k then
                      { k with sel := update_keyframe_handle_selection k.sel dir false false }
                    else k).map fun k =>
                    if isSelectedKf k then
                      { k with sel := update_keyframe_handle_selection k.sel dir false true }
                    else k }
              from by simp [toggle_keyframe_handle_selection_for_fcurve, hie2]]
            rw [List.map_map]
            have hkpt : ∀ k ∈ fc.keyframes,
                ((fun k => if isSelectedKf k then
                    { k with sel := update_keyframe_handle_selection k.sel dir false true }
                  else k)
                 ∘ fun k => if isSelectedKf k then
                    { k with sel := update_keyframe_handle_selection k.sel dir false false }
                  else k) k = k := by
              intro k hkm
              by_cases hk : isSelectedKf k = true
              · exact toggle_kf_roundtrip k dir (h fc hfcm hs k hkm hk)
              · simp only [Function.comp_apply]
                rw [if_neg hk, if_neg hk]
            rw [List.map_congr_left hkpt, List.map_id']
        · rw [if_neg hs, if_neg hs]
      rw [List.map_congr_left hpt, List.map_id']

/-- C5 witness: the amended round trip on a batch whose selected point is
control-only. -/
theorem C5_amended_round_trip_witness :
    (∀ fc ∈ w5fcs, fc.select = true → ∀ k ∈ fc.keyframes,
        isSelectedKf k = true → k.sel = ⟨true, false, false⟩)
    ∧ toggle_handle_selection (toggle_handle_selection w5fcs .left false) .left false
        = w5fcs :=
  ⟨by decide, C5_amended_round_trip w5fcs .left (by decide)⟩

/- ---------------------------------------------------------------------
Modal state machine: structural invariants
--------------------------------------------------------------------- -/

/-- Setting an index to the value it already holds is the identity. -/
theorem set_get_self {α : Type} (xs : List α) (i : Nat) (x : α)
    (h : xs.get? i = some x) : xs.set i x = xs := by
  induction xs generalizing i with
  | nil => simp at h
  | cons a l ih =>
      cases i with
      | zero =>
          simp only [List.get?] at h
          cases h
          rfl
      | succ n =>
          simp only [List.get?] at h
          simp only [List.set]
          rw [ih n h]

/-- `shape` is unchanged by `set` with a channel of equal keyframe count. -/
theorem shape_set (fcs : List FCurve) (i : Nat) (fc2 : FCurve)
    (h : ∀ fc, fcs.get? i = some fc → fc2.keyframes.length = fc.keyframes.length) :
    shape (fcs.set i fc2) = shape fcs := by
  rw [shape, shape, List.map_set]
  cases hg : fcs.get? i with
  | none =>
      have hlen : fcs.length ≤ i := by
        by_contra hc
        push_neg at hc
        rw [List.get?_eq_getElem?, List.getElem?_eq_getElem hc] at hg
        cases hg
      exact List.set_eq_of_length_le (by simpa using hlen)
  | some fc =>
      apply set_get_self
      rw [List.get?_eq_getElem?, List.getElem?_map, ← List.get?_eq_getElem?, hg]
      simp [h fc hg]

/-- `shape` is unchanged by a keyframe-preserving `mapIdx`. -/
theorem shape_mapIdx (fcs : List FCurve) (g : Nat → FCurve → FCurve)
    (h : ∀ i fc, (g i fc).keyframes = fc.keyframes) :
    shape (fcs.mapIdx g) = shape fcs := by
  rw [shape, shape, List.mapIdx_eq_enum_map, List.map_map]
  conv_rhs => rw [← List.enum_map_snd fcs, List.map_map]
  apply List.map_congr_left
  intro p _
  simp [Function.comp, Function.uncurry, h p.1 p.2]

/-- `shape` is unchanged by a keyframe-preserving `map`. -/
theorem shape_map (fcs : List FCurve) (g : FCurve → FCurve)
    (h : ∀ fc, (g fc).keyframes = fc.keyframes) :
    shape (fcs.map g) = shape fcs := by
  rw [shape, shape, List.map_map]
  apply List.map_congr_left
  intro fc _
  simp [Function.comp, h fc]

theorem stable_refl (s : OpState) : stable s s :=
  ⟨rfl, rfl, rfl, rfl, rfl⟩

theorem stable_trans {a b c : OpState} (h1 : stable a b) (h2 : stable b c) :
    stable a c :=
  ⟨h2.1.trans h1.1, h2.2.1.trans h1.2.1, h2.2.2.1.trans h1.2.2.1,
   h2.2.2.2.1.trans h1.2.2.2.1, h2.2.2.2.2.trans h1.2.2.2.2⟩

/-- `setFlag` never touches the keyframes. -/
theorem setFlag_keyframes (f : ChanFlag) (b : Bool) (fc : FCurve) :
    (setFlag f b fc).keyframes = fc.keyframes := by
  cases f <;> rfl

theorem scrollStep_stable (s : OpState) (e : NavEvent) : stable s (scrollStep s e) := by
  rw [scrollStep]
  split_ifs <;> exact ⟨rfl, rfl, rfl, rfl, rfl⟩

theorem toggle_property_stable (s : OpState) (f : ChanFlag) :
    stable s (toggle_property_for_current s f) := by
  rw [toggle_property_for_current]
  cases hg : s.fcurves.get? s.currentIdx with
  | none => exact stable_refl s
  | some fc =>
      refine ⟨rfl, rfl, rfl, rfl, ?_⟩
      apply shape_set
      intro fc2 hfc2
      rw [hg] at hfc2
      cases hfc2
      rw [setFlag_keyframes]

theorem keyStep_stable (s : OpState) (e : NavEvent) : stable s (keyStep s e) := by
  rw [keyStep]
  split_ifs <;> first
    | exact toggle_property_stable s _
    | exact stable_refl s

/-- Soloing changes only the hide/select flags: the shape is unchanged. -/
theorem solo_channel_shape (fcs : List FCurve) (t : Nat) :
    shape ((solo_channel fcs t).1) = shape fcs := by
  cases hg : fcs.get? t with
  | none =>
      rw [List.get?_eq_getElem?] at hg
      simp [solo_channel, hg]
  | some tfc =>
      rw [List.get?_eq_getElem?] at hg
      simp only [solo_channel, List.get?_eq_getElem?, hg]
      refine (shape_mapIdx _ (fun i fc => { fc with select := i == t })
        fun i fc => rfl).trans ?_
      split_ifs
      · exact shape_map _ (fun fc => { fc with hide := false }) fun fc => rfl
      · exact shape_mapIdx _ (fun i fc => { fc with hide := i != t }) fun i fc => rfl

theorem handle_click_stable (s : OpState) (e : NavEvent) :
    stable s (handle_click s e) := by
  rw [handle_click]
  cases e.hovered with
  | none => exact stable_refl s
  | some dz =>
      obtain ⟨d, z⟩ := dz
      simp only
      cases display_idx_to_fcurve_idx s d with
      | none => exact stable_refl s
      | some i =>
          simp only
          cases hg : s.fcurves.get? i with
          | none => exact stable_refl s
          | some fc =>
              simp only
              cases z with
              | hide =>
                  refine ⟨rfl, rfl, rfl, rfl, ?_⟩
                  apply shape_set
                  intro fc2 hfc2
                  rw [hg] at hfc2
                  cases hfc2
                  rfl
              | lock =>
                  refine ⟨rfl, rfl, rfl, rfl, ?_⟩
                  apply shape_set
                  intro fc2 hfc2
                  rw [hg] at hfc2
                  cases hfc2
                  rfl
              | mute =>
                  refine ⟨rfl, rfl, rfl, rfl, ?_⟩
                  apply shape_set
                  intro fc2 hfc2
                  rw [hg] at hfc2
                  cases hfc2
                  rfl
              | text =>
                  split_ifs
                  · exact ⟨rfl, rfl, rfl, rfl, solo_channel_shape s.fcurves i⟩
                  · exact stable_refl s

theorem clickStep_stable (s : OpState) (e : NavEvent) : stable s (clickStep s e) := by
  rw [clickStep]
  split_ifs
  · exact stable_trans (b := { s with pressed := true })
      ⟨rfl, rfl, rfl, rfl, rfl⟩ (handle_click_stable _ e)
  · exact ⟨rfl, rfl, rfl, rfl, rfl⟩
  · exact stable_refl s

theorem dragStep_stable (s : OpState) (e : NavEvent) : stable s (dragStep s e) := by
  rw [dragStep]
  cases s.dragMode with
  | none => exact stable_refl s
  | some m =>
      cases e.hovered with
      | none => exact stable_refl s
      | some dz =>
          obtain ⟨d, z⟩ := dz
          simp only
          split_ifs
          · cases display_idx_to_fcurve_idx s d with
            | none => exact stable_refl s
            | some i =>
                simp only
                cases hg : s.fcurves.get? i with
                | none => exact stable_refl s
                | some fc =>
                    refine ⟨rfl, rfl, rfl, rfl, ?_⟩
                    apply shape_set
                    intro fc2 hfc2
                    rw [hg] at hfc2
                    cases hfc2
                    rw [setFlag_keyframes]
          · exact stable_refl s

/-- `transferOne` keeps the target's keyframe count. -/
theorem transferOne_length (ks : List Keyframe) (item : Keyframe) :
    (transferOne ks item).length = ks.length := by
  rw [transferOne]
  split_ifs
  · rfl
  · rw [listUpdate]
    cases ks.get? (pyMinIdxT ks item.frame) with
    | none => rfl
    | some x => exact List.length_set _ _ _

/-- The whole transfer loop keeps the target's keyframe count. -/
theorem foldl_transferOne_length (items : List Keyframe) :
    ∀ ks : List Keyframe,
      (items.foldl (fun ks item => transferOne ks item) ks).length = ks.length := by
  induction items with
  | nil => intro ks; rfl
  | cons a items ih =>
      intro ks
      rw [List.foldl_cons, ih (transferOne ks a), transferOne_length]

/-- The pair transfer keeps both channels' keyframe counts. -/
theorem transferPair_length (f t : FCurve) :
    (transferPair f t).1.keyframes.length = f.keyframes.length
    ∧ (transferPair f t).2.keyframes.length = t.keyframes.length := by
  rw [transferPair]
  split_ifs
  · exact ⟨rfl, rfl⟩
  · exact ⟨List.length_map _ _, foldl_transferOne_length _ _⟩

/-- The list-level transfer preserves the shape. -/
theorem transferAt_shape (fcs : List FCurve) (i j : Nat) :
    shape (transferAt fcs i j) = shape fcs := by
  rw [transferAt]
  split_ifs with hij
  · rfl
  · cases hgi : fcs.get? i with
    | none => rfl
    | some f =>
        cases hgj : fcs.get? j with
        | none => rfl
        | some t =>
            simp only
            rw [shape_set, shape_set]
            · intro fc hfc
              rw [hgi] at hfc
              cases hfc
              exact (transferPair_length f t).1
            · intro fc hfc
              rw [List.get?_eq_getElem?, List.getElem?_set_ne hij,
                ← List.get?_eq_getElem?, hgj] at hfc
              cases hfc
              exact (transferPair_length f t).2

theorem change_channel_stable (s : OpState) (newIdx : Nat) :
    stable s (change_channel s newIdx) := by
  rw [change_channel]
  split_ifs
  · exact stable_refl s
  · cases s.fcurves.get? s.currentIdx with
    | some fc => exact ⟨rfl, rfl, rfl, rfl, transferAt_shape _ _ _⟩
    | none => exact ⟨rfl, rfl, rfl, rfl, shape_mapIdx _ _ fun i fc => rfl⟩
  · exact stable_refl s

theorem hoverStep_stable (s : OpState) (e : NavEvent) : stable s (hoverStep s e) := by
  cases he : e.hovered with
  | none =>
      simp only [hoverStep, he]
      exact stable_refl s
  | some dz =>
      obtain ⟨d, z⟩ := dz
      cases z
      case text =>
        simp only [hoverStep, he]
        by_cases hdr : s.dragging = true
        · rw [if_neg (not_not_intro hdr)]
          exact stable_refl s
        · rw [if_pos hdr]
          cases display_idx_to_fcurve_idx s d with
          | none => exact stable_refl s
          | some newIdx =>
              show stable s (if newIdx ≠ s.currentIdx then change_channel s newIdx else s)
              by_cases hne2 : newIdx ≠ s.currentIdx
              · rw [if_pos hne2]
                exact change_channel_stable s newIdx
              · rw [if_neg hne2]
                exact stable_refl s
      all_goals
        simp only [hoverStep, he]
        exact stable_refl s

/-- Every non-terminal modal transition is `stable`. -/
theorem modalStep_running_stable (s : OpState) (e : NavEvent) (s2 : OpState)
    (h : modalStep s e = .running s2) : stable s s2 := by
  rw [modalStep] at h
  split_ifs at h
  cases h
  exact stable_trans (scrollStep_stable s e)
    (stable_trans (keyStep_stable _ e)
      (stable_trans (clickStep_stable _ e)
        (stable_trans (dragStep_stable _ e) (hoverStep_stable _ e))))

/-- `stable` holds along every still-running event sequence. -/
theorem runModal_stable (evts : List NavEvent) :
    ∀ s s2 : OpState, runModal s evts = .running s2 → stable s s2 := by
  induction evts with
  | nil =>
      intro s s2 h
      rw [runModal] at h
      cases h
      exact stable_refl s
  | cons e es ih =>
      intro s s2 h
      rw [runModal] at h
      cases hstep : modalStep s e with
      | running s3 =>
          rw [hstep] at h
          exact stable_trans (modalStep_running_stable s e s3 hstep) (ih s3 s2 h)
      | cancelled fcs2 => rw [hstep] at h; cases h
      | finished fcs2 focus => rw [hstep] at h; cases h

/- ---------------------------------------------------------------------
C1: cancel round trip
--------------------------------------------------------------------- -/

theorem stable_len {s s2 : OpState} (h : stable s s2) :
    s2.fcurves.length = s.fcurves.length := by
  have h2 := congrArg List.length h.2.2.2.2
  simpa [shape] using h2

/-- Restoring the snapshot triples into a keyframe list of the same
length writes back exactly the snapshot. -/
theorem restoreKfs_sel (ks : List Keyframe) (sls : List KeyframeSel)
    (h : ks.length = sls.length) :
    (restoreKfs ks sls).map (fun k => k.sel) = sls := by
  induction ks generalizing sls with
  | nil =>
      cases sls with
      | nil => rfl
      | cons sl sls2 => simp at h
  | cons k ks ih =>
      cases sls with
      | nil => simp at h
      | cons sl sls2 =>
          simp only [restoreKfs, List.map_cons, List.cons.injEq]
          exact ⟨trivial, ih sls2 (by simpa using h)⟩

/-- Restoring a snapshot taken from `fcs` into any channel list of the
same shape recovers the captured select/hide/keyframe-selection state of
`fcs`. -/
theorem restore_proj (fcs2 fcs : List FCurve) (h : shape fcs2 = shape fcs) :
    (restore_original_state fcs2 (fcs.map fun fc => fc.select)
      (fcs.map fun fc => fc.hide)
      (fcs.map fun fc => fc.keyframes.map fun k => k.sel)).map projSel
      = fcs.map projSel := by
  induction fcs2 generalizing fcs with
  | nil =>
      cases fcs with
      | nil => rfl
      | cons fc l => simp [shape] at h
  | cons fc2 l2 ih =>
      cases fcs with
      | nil => simp [shape] at h
      | cons fc l =>
          simp only [shape, List.map_cons, List.cons.injEq] at h
          simp only [List.map_cons, restore_original_state, List.cons.injEq]
          constructor
          · simp only [projSel]
            rw [restoreKfs_sel]
            rw [List.length_map]
            exact h.1
          · exact ih l h.2

/-- C1: for every event sequence after invoke that is still running, a
cancel input (`RIGHTMOUSE`/`ESC`) restores every channel's select flag,
hide flag and every keyframe's selection triple to the values captured
at invoke time, whatever mutations (hide/lock/mute toggles, drag
toggles, hover transfers, solo, scrolling) happened in between.  The
set of channels and their keyframe counts are not modified externally:
in this closed model no event changes them. -/
theorem C1_cancel_restores_snapshot (fcs : List FCurve) (cfg : Config)
    (evts : List NavEvent) (e : NavEvent) (s0 s : OpState)
    (hinv : invoke fcs cfg = some s0)
    (hrun : runModal s0 evts = .running s)
    (hcancel : e.etype = .rightmouse ∨ e.etype = .esc) :
    ∃ fcs2, modalStep s e = .cancelled fcs2
      ∧ fcs2.map projSel = fcs.map projSel := by
  have hs0 : s0 = invokeState fcs cfg := by
    by_cases hne : fcs.isEmpty = true
    · rw [invoke, if_pos hne] at hinv
      cases hinv
    · rw [invoke, if_neg hne] at hinv
      cases hinv
      rfl
  have hst : stable s0 s := runModal_stable evts s0 s hrun
  have hsnap : s.snap = store_snapshot fcs := by
    rw [hst.1, hs0]
    rfl
  have hshape : shape s.fcurves = shape fcs := by
    rw [hst.2.2.2.2, hs0]
    rfl
  refine ⟨restore_original_state s.fcurves s.snap.sel s.snap.hide s.snap.kfSel, ?_, ?_⟩
  · rw [modalStep, if_pos hcancel]
  · rw [hsnap]
    exact restore_proj s.fcurves fcs hshape

/-- C1 witness: two channels; toggle hide of the current channel, hover
the other channel (transferring keyframe selection), scroll, then
cancel — the selection state projection equals the invoke-time one. -/
theorem C1_cancel_restores_snapshot_witness :
    ∃ fcs2, modalStep w1s escEv = .cancelled fcs2
      ∧ fcs2.map projSel = w1fcs.map projSel :=
  C1_cancel_restores_snapshot w1fcs w1cfg w1evts escEv
    (invokeState w1fcs w1cfg) w1s rfl rfl (Or.inr rfl)

/- ---------------------------------------------------------------------
C7: scroll clamp
--------------------------------------------------------------------- -/

theorem toggle_property_offset (s : OpState) (f : ChanFlag) :
    (toggle_property_for_current s f).scrollOffset = s.scrollOffset := by
  rw [toggle_property_for_current]
  cases s.fcurves.get? s.currentIdx <;> rfl

theorem keyStep_offset (s : OpState) (e : NavEvent) :
    (keyStep s e).scrollOffset = s.scrollOffset := by
  rw [keyStep]
  split_ifs <;> first
    | exact toggle_property_offset _ _
    | rfl

theorem handle_click_offset (s : OpState) (e : NavEvent) :
    (handle_click s e).scrollOffset = s.scrollOffset := by
  rw [handle_click]
  cases e.hovered with
  | none => rfl
  | some dz =>
      obtain ⟨d, z⟩ := dz
      simp only
      cases display_idx_to_fcurve_idx s d with
      | none => rfl
      | some i =>
          simp only
          cases s.fcurves.get? i with
          | none => rfl
          | some fc =>
              simp only
              cases z with
              | hide => rfl
              | lock => rfl
              | mute => rfl
              | text => split_ifs <;> rfl

theorem clickStep_offset (s : OpState) (e : NavEvent) :
    (clickStep s e).scrollOffset = s.scrollOffset := by
  rw [clickStep]
  split_ifs
  · exact handle_click_offset { s with pressed := true } e
  · rfl
  · rfl

theorem dragStep_offset (s : OpState) (e : NavEvent) :
    (dragStep s e).scrollOffset = s.scrollOffset := by
  rw [dragStep]
  cases s.dragMode with
  | none => rfl
  | some m =>
      cases e.hovered with
      | none => rfl
      | some dz =>
          obtain ⟨d, z⟩ := dz
          simp only
          split_ifs
          · cases display_idx_to_fcurve_idx s d with
            | none => rfl
            | some i =>
                simp only
                cases s.fcurves.get? i with
                | none => rfl
                | some fc => rfl
          · rfl

theorem change_channel_offset (s : OpState) (newIdx : Nat) :
    (change_channel s newIdx).scrollOffset = s.scrollOffset := by
  rw [change_channel]
  split_ifs
  · rfl
  · cases s.fcurves.get? s.currentIdx <;> rfl
  · rfl

theorem hoverStep_offset (s : OpState) (e : NavEvent) :
    (hoverStep s e).scrollOffset = s.scrollOffset := by
  cases he : e.hovered with
  | none =>
      simp only [hoverStep, he]
  | some dz =>
      obtain ⟨d, z⟩ := dz
      cases z
      case text =>
        simp only [hoverStep, he]
        by_cases hdr : s.dragging = true
        · rw [if_neg (not_not_intro hdr)]
        · rw [if_pos hdr]
          cases display_idx_to_fcurve_idx s d with
          | none => rfl
          | some newIdx =>
              show (if newIdx ≠ s.currentIdx then change_channel s newIdx else s).scrollOffset
                = s.scrollOffset
              split_ifs
              · exact change_channel_offset s newIdx
              · rfl
      all_goals simp only [hoverStep, he]

/-- A non-terminal modal transition moves the scroll offset exactly as
the wheel-handling section does: every other section leaves it alone. -/
theorem modalStep_running_offset (s : OpState) (e : NavEvent) (s2 : OpState)
    (h : modalStep s e = .running s2) :
    s2.scrollOffset = (scrollStep s e).scrollOffset := by
  rw [modalStep] at h
  split_ifs at h
  cases h
  rw [hoverStep_offset, dragStep_offset, clickStep_offset, keyStep_offset]

/-- The wheel section: up moves down by one (clamped at 0), down moves up
by one (clamped at `len - displayCount`), anything else leaves the
offset unchanged; and with `needsScroll = false` it never moves. -/
theorem scrollStep_offset_cases (s : OpState) (e : NavEvent) :
    ((scrollStep s e).scrollOffset = s.scrollOffset - 1 ∧ s.needsScroll = true)
    ∨ ((scrollStep s e).scrollOffset
        = min (s.fcurves.length - s.displayCount) (s.scrollOffset + 1)
        ∧ s.needsScroll = true)
    ∨ (scrollStep s e).scrollOffset = s.scrollOffset := by
  rw [scrollStep]
  split_ifs with h1 h2
  · exact Or.inl ⟨rfl, h1.2⟩
  · exact Or.inr (Or.inl ⟨rfl, h2.2⟩)
  · exact Or.inr (Or.inr rfl)

/-- `scrollBound` is preserved by every non-terminal modal transition. -/
theorem modalStep_running_bound (s : OpState) (e : NavEvent) (s2 : OpState)
    (h : modalStep s e = .running s2) (hb : scrollBound s) : scrollBound s2 := by
  have hst := modalStep_running_stable s e s2 h
  have hoff := modalStep_running_offset s e s2 h
  rw [scrollBound, hoff, stable_len hst, hst.2.2.1]
  rcases scrollStep_offset_cases s e with ⟨h1, _⟩ | ⟨h2, _⟩ | h3
  · rw [h1]
    rw [scrollBound] at hb
    omega
  · rw [h2]
    exact min_le_left _ _
  · rw [h3]
    exact hb

/-- `scrollBound` holds along every still-running event sequence. -/
theorem runModal_bound (evts : List NavEvent) :
    ∀ s s2 : OpState, runModal s evts = .running s2 → scrollBound s → scrollBound s2 := by
  induction evts with
  | nil =>
      intro s s2 h hb
      rw [runModal] at h
      cases h
      exact hb
  | cons e es ih =>
      intro s s2 h hb
      rw [runModal] at h
      cases hstep : modalStep s e with
      | running s3 =>
          rw [hstep] at h
          exact ih s3 s2 h (modalStep_running_bound s e s3 hstep hb)
      | cancelled fcs2 => rw [hstep] at h; cases h
      | finished fcs2 focus => rw [hstep] at h; cases h

/-- The invoke-time state satisfies the scroll bound. -/
theorem invokeState_bound (fcs : List FCurve) (cfg : Config) :
    scrollBound (invokeState fcs cfg) := by
  rw [scrollBound, invokeState]
  exact min_le_right _ _

/-- C7: along any run from invoke, the scroll offset stays within
`[0, channelCount - displayCount]` (natural subtraction), each further
non-terminal event moves it by at most one, and when `channelCount ≤
maxVisibleRows` (so scrolling is disabled) no event moves it at all. -/
theorem C7_scroll_clamp (fcs : List FCurve) (cfg : Config)
    (evts : List NavEvent) (e : NavEvent) (s0 s s2 : OpState)
    (hinv : invoke fcs cfg = some s0)
    (hrun : runModal s0 evts = .running s)
    (hstep : modalStep s e = .running s2) :
    (s.scrollOffset ≤ fcs.length - s.displayCount
      ∧ s2.scrollOffset ≤ fcs.length - s2.displayCount)
    ∧ (s2.scrollOffset ≤ s.scrollOffset + 1 ∧ s.scrollOffset ≤ s2.scrollOffset + 1)
    ∧ (fcs.length ≤ cfg.maxDisplay → s2.scrollOffset = s.scrollOffset) := by
  have hs0 : s0 = invokeState fcs cfg := by
    by_cases hne : fcs.isEmpty = true
    · rw [invoke, if_pos hne] at hinv
      cases hinv
    · rw [invoke, if_neg hne] at hinv
      cases hinv
      rfl
  have hst : stable s0 s := runModal_stable evts s0 s hrun
  have hst2 : stable s s2 := modalStep_running_stable s e s2 hstep
  have hlen : s.fcurves.length = fcs.length := by
    rw [stable_len hst, hs0]
    rfl
  have hlen2 : s2.fcurves.length = fcs.length := by
    rw [stable_len hst2, hlen]
  have hb : scrollBound s :=
    runModal_bound evts s0 s hrun (by rw [hs0]; exact invokeState_bound fcs cfg)
  have hb2 : scrollBound s2 := modalStep_running_bound s e s2 hstep hb
  have hns : s.needsScroll = decide (cfg.maxDisplay < fcs.length) := by
    rw [hst.2.2.2.1, hs0]
    rfl
  have hoff := modalStep_running_offset s e s2 hstep
  refine ⟨⟨?_, ?_⟩, ?_, ?_⟩
  · rw [scrollBound] at hb
    rw [← hlen]
    exact hb
  · rw [scrollBound] at hb2
    rw [← hlen2]
    exact hb2
  · rw [hoff]
    rcases scrollStep_offset_cases s e with ⟨h1, _⟩ | ⟨h2, _⟩ | h3
    · rw [h1]
      omega
    · rw [h2]
      rw [scrollBound] at hb
      rcases Nat.le_total (s.fcurves.length - s.displayCount) (s.scrollOffset + 1) with hc | hc
      · rw [Nat.min_eq_left hc]
        omega
      · rw [Nat.min_eq_right hc]
        omega
    · rw [h3]
      omega
  · intro hle
    rw [hoff]
    have hnsf : s.needsScroll = false := by
      rw [hns]
      simpa using Nat.not_lt.mpr hle
    rw [scrollStep]
    split_ifs with h1 h2
    · rw [hnsf] at h1
      cases h1.2
    · rw [hnsf] at h2
      cases h2.2
    · rfl

set_option maxRecDepth 8000 in
/-- C7 witness: 10 channels, `maxVisibleRows = 4`, 100 wheel-down events
→ offset 6, never higher; the next wheel-down keeps it at 6. -/
theorem C7_scroll_clamp_witness :
    w7s.scrollOffset = 6
    ∧ ((w7s.scrollOffset ≤ w7fcs.length - w7s.displayCount
        ∧ w7s2.scrollOffset ≤ w7fcs.length - w7s2.displayCount)
      ∧ (w7s2.scrollOffset ≤ w7s.scrollOffset + 1
        ∧ w7s.scrollOffset ≤ w7s2.scrollOffset + 1)
      ∧ (w7fcs.length ≤ w7cfg.maxDisplay → w7s2.scrollOffset = w7s.scrollOffset)) :=
  ⟨by decide,
    C7_scroll_clamp w7fcs w7cfg (List.replicate 100 wheelDownEv) wheelDownEv
      w7s0 w7s w7s2 rfl rfl rfl⟩

/- ---------------------------------------------------------------------
C10: hover with an empty source selection
--------------------------------------------------------------------- -/

/-- C10: while open and not dragging, a pointer move over the text zone
of a row holding a channel different from the current one, when the
current (source) channel has no keyframe with any selected sub-element,
updates only `current_idx`: the transfer returns before any mutation, so
no channel select flag and no keyframe selection flag changes — the
hovered channel is not selected by this step and the source keeps its
flags. -/
theorem C10_hover_empty_selection_only_current (s : OpState) (e : NavEvent)
    (d j : Nat)
    (hkey : s.cfg.key ≠ EType.mouseMove)
    (hetype : e.etype = EType.mouseMove)
    (hhov : e.hovered = some (d, Zone.text))
    (hdrag : s.dragging = false)
    (hdisp : display_idx_to_fcurve_idx s d = some j)
    (hne : j ≠ s.currentIdx)
    (hcur : s.currentIdx < s.fcurves.length)
    (hnosel : ∀ fc, s.fcurves.get? s.currentIdx = some fc →
        get_selected_keyframes fc.keyframes = []) :
    modalStep s e = .running { s with currentIdx := j } := by
  obtain ⟨fc, hfc⟩ : ∃ fc, s.fcurves.get? s.currentIdx = some fc := by
    rw [List.get?_eq_getElem?]
    exact ⟨_, List.getElem?_eq_getElem hcur⟩
  have hj : j < s.fcurves.length := by
    rw [display_idx_to_fcurve_idx] at hdisp
    split_ifs at hdisp with hcond
    · cases hdisp
      omega
  obtain ⟨tfc, htfc⟩ : ∃ tfc, s.fcurves.get? j = some tfc := by
    rw [List.get?_eq_getElem?]
    exact ⟨_, List.getElem?_eq_getElem hj⟩
  have h1 : scrollStep s e = s := by
    rw [scrollStep, if_neg (by simp [hetype]), if_neg (by simp [hetype])]
  have h2 : keyStep s e = s := by
    rw [keyStep, if_neg (by simp [hetype]), if_neg (by simp [hetype]),
      if_neg (by simp [hetype])]
  have h3 : clickStep s e = s := by
    rw [clickStep, if_neg (by simp [hetype]), if_neg (by simp [hetype])]
  have h4 : dragStep s e = s := by
    rw [dragStep, hhov]
    cases s.dragMode with
    | none => rfl
    | some m => simp [hdrag]
  have h6 : change_channel s j = { s with currentIdx := j } := by
    rw [change_channel, if_neg hne, if_pos hj, hfc]
    show { s with fcurves := transferAt s.fcurves s.currentIdx j, currentIdx := j }
      = { s with currentIdx := j }
    have hpair : transferPair fc tfc = (fc, tfc) := by
      have hsel := hnosel fc hfc
      simp [transferPair, hsel]
    have htr : transferAt s.fcurves s.currentIdx j = s.fcurves := by
      rw [transferAt, if_neg fun hh => hne hh.symm, hfc, htfc]
      show ((s.fcurves.set s.currentIdx (transferPair fc tfc).1).set j
        (transferPair fc tfc).2) = s.fcurves
      have hp1 : (transferPair fc tfc).1 = fc := by rw [hpair]
      have hp2 : (transferPair fc tfc).2 = tfc := by rw [hpair]
      rw [hp1, hp2, set_get_self _ _ _ hfc]
      exact set_get_self _ _ _ htfc
    rw [htr]
  have h5 : hoverStep s e = change_channel s j := by
    simp only [hoverStep, hhov]
    rw [if_pos (by simp [hdrag]), hdisp]
    show (if j ≠ s.currentIdx then change_channel s j else s) = change_channel s j
    rw [if_pos hne]
  rw [modalStep,
    if_neg (by simp [hetype]),
    if_neg (by rintro ⟨ha, _⟩; rw [hetype] at ha; exact hkey ha.symm),
    h1, h2, h3, h4, h5, h6]

/-- C10 witness: two channels, the current one selected with an
unselected keyframe; hovering the other row's text zone moves only the
current index. -/
theorem C10_hover_empty_selection_only_current_witness :
    (w10s.cfg.key ≠ EType.mouseMove ∧ w10s.dragging = false
      ∧ display_idx_to_fcurve_idx w10s 0 = some 1
      ∧ (1 : Nat) ≠ w10s.currentIdx
      ∧ w10s.currentIdx < w10s.fcurves.length)
    ∧ modalStep w10s w10ev = .running { w10s with currentIdx := 1 } :=
  ⟨⟨by decide, rfl, by decide, by decide, by decide⟩,
    C10_hover_empty_selection_only_current w10s w10ev 0 1 (by decide) rfl rfl rfl
      (by decide) (by decide) (by decide)
      (fun fc hfc => by
        have h2 : some (mkFc true [mkKf 0 false false false .bezier]) = some fc := hfc
        cases h2
        decide)⟩
